import Mathlib

/-!
Verification development for the NeurofluxionAI request/response mediation
layer: the in-memory entity store (`server/storage.ts`, class `MemStorage`)
and the chat orchestration / proxy-fallback handlers (`server/routes.ts`).

Modelling conventions:
- JavaScript `Map<K, V>` values are insertion-ordered association lists
  `List (K × V)`; `Map.set` keeps the position of an existing key and
  appends a new one, `Map.delete` removes the entry, `Array.from(map.values())`
  is the list of second components.
- Timestamps (`Date` values) are integers in epoch milliseconds, so
  `new Date(m.createdAt).getTime()` is the stored integer itself and
  `Date.now()` is a `now : Int` parameter threaded through each operation.
- JSON column values (`json("metadata")`) are the inductive `JsonVal`;
  JavaScript truthiness (`ToBoolean`) on them is `jsTruthy`, so the
  source's `x || null` becomes `jsOrNullJson` and, on nullable text
  columns modelled as `Option String`, `jsOrNullStr`.
- `Array.prototype.sort` with comparator `a.createdAt - b.createdAt` is a
  stable ascending sort by `createdAt`, modelled by `List.insertionSort`
  (also stable) with the relation `a.createdAt ≤ b.createdAt`.
- The external inference backend (`fetch` to `BACKEND_API_URL`) is a
  parameter of the handler: `BackendResult.ok` carries the parsed JSON
  fields used by the handler, `BackendResult.failure` covers both a
  non-2xx response (`!response.ok` throws) and a transport-level rejection,
  which land in the same `catch` block.
-/

namespace Neurofluxion

/-- JSON values as stored in the `json(...)` columns of `shared/schema.ts`. -/
inductive JsonVal where
  | null
  | bool (b : Bool)
  | num (n : Int)
  | str (s : String)
  | arr (elems : List JsonVal)
  | obj (fields : List (String × JsonVal))


/-- JavaScript `ToBoolean` on a JSON value: `null`, `false`, `0` and the
empty string are falsy; every array and object is truthy. -/
def jsTruthy : JsonVal → Bool
  | .null => false
  | .bool b => b
  | .num n => n != 0
  | .str s => s != ""
  | .arr _ => true
  | .obj _ => true

/-- JavaScript `x || null` on a possibly-absent JSON value (absent
properties are `undefined`, which is falsy): falsy input yields `null`,
truthy input is kept. -/
def jsOrNullJson : Option JsonVal → JsonVal
  | none => JsonVal.null
  | some v => if jsTruthy v then v else JsonVal.null

/-- JavaScript `x || null` on a nullable text field (`Option String`,
`none` standing for `null`/`undefined`): the empty string is falsy and
collapses to `null`. -/
def jsOrNullStr : Option String → Option String
  | none => none
  | some s => if s = "" then none else some s

/-- Row of the `conversations` table (`shared/schema.ts`). -/
structure Conversation where
  id : Nat
  title : String
  createdAt : Int
  updatedAt : Int


/-- Row of the `messages` table (`shared/schema.ts`). -/
structure Message where
  id : Nat
  conversationId : Nat
  content : String
  role : String
  messageType : String
  metadata : JsonVal
  agentUsed : Option String
  createdAt : Int


/-- Insert payload for `createMessage` (`InsertMessage` in
`shared/schema.ts`): no `id`/`createdAt`, and `metadata`/`agentUsed` may be
absent (`none`). For `metadata`, `some JsonVal.null` is an explicitly
supplied JSON `null`, as passed by the chat route. -/
structure InsertMessage where
  conversationId : Nat
  content : String
  role : String
  messageType : String
  metadata : Option JsonVal
  agentUsed : Option String


/-- Row of the `agent_status` table (`shared/schema.ts`). -/
structure AgentStatus where
  id : Nat
  agentName : String
  status : String
  lastActivity : Int
  metadata : JsonVal


/-- Insert payload for `createOrUpdateAgentStatus` (`InsertAgentStatus` in
`shared/schema.ts`); `metadata := none` models an absent property, so a
spread `{...existing, ...insert}` does not override `metadata` then. -/
structure InsertAgentStatus where
  agentName : String
  status : String
  metadata : Option JsonVal


/-- Row of the `vector_documents` table (`shared/schema.ts`). -/
structure VectorDocument where
  id : Nat
  title : String
  content : String
  filePath : Option String
  documentType : String
  createdAt : Int


/-- JavaScript `Map.prototype.set` on an insertion-ordered association
list: an existing key keeps its position and gets the new value, a new key
is appended at the end. -/
def mapSet {κ α : Type} [DecidableEq κ] (l : List (κ × α)) (k : κ) (v : α) :
    List (κ × α) :=
  if l.any (fun p => p.1 = k) then
    l.map (fun p => if p.1 = k then (k, v) else p)
  else
    l ++ [(k, v)]

/-- JavaScript `Map.prototype.get`: the value at the key, if present. -/
def mapGet {κ α : Type} [DecidableEq κ] (l : List (κ × α)) (k : κ) : Option α :=
  (l.find? (fun p => p.1 = k)).map Prod.snd

/-- JavaScript `Map.prototype.delete`: drop the entry with the key. -/
def mapDelete {κ α : Type} [DecidableEq κ] (l : List (κ × α)) (k : κ) :
    List (κ × α) :=
  l.filter (fun p => ¬ p.1 = k)

/-- JavaScript `Array.from(map.values())` in insertion order. -/
def mapValues {κ α : Type} (l : List (κ × α)) : List α :=
  l.map Prod.snd

/-- State of `MemStorage` (`server/storage.ts`): one `Map` per entity
family plus the shared `currentId` counter. -/
structure MemStorage where
  conversations : List (Nat × Conversation)
  messages : List (Nat × Message)
  agentStatuses : List (String × AgentStatus)
  vectorDocuments : List (Nat × VectorDocument)
  currentId : Nat


/-- `MemStorage.getConversation` (`server/storage.ts` line 80). -/
def MemStorage.getConversation (s : MemStorage) (id : Nat) : Option Conversation :=
  mapGet s.conversations id

/-- `MemStorage.deleteConversation` (`server/storage.ts` lines 107-115):
remove the conversation, then scan all message entries and delete every one
whose value's `conversationId` equals `id`. -/
def MemStorage.deleteConversation (s : MemStorage) (id : Nat) : MemStorage :=
  { s with
    conversations := mapDelete s.conversations id
    messages := s.messages.filter (fun p => ¬ p.2.conversationId = id) }

/-- Ascending-by-`createdAt` ordering used by
`sort((a, b) => new Date(a.createdAt).getTime() - new Date(b.createdAt).getTime())`. -/
def createdAtLE (a b : Message) : Prop :=
  a.createdAt ≤ b.createdAt

instance : DecidableRel createdAtLE := fun a b => by
  unfold createdAtLE; infer_instance

/-- `MemStorage.getMessages` (`server/storage.ts` lines 118-122): all
stored messages of the conversation, stably sorted ascending by
`createdAt`. -/
def MemStorage.getMessages (s : MemStorage) (conversationId : Nat) : List Message :=
  List.insertionSort createdAtLE
    ((mapValues s.messages).filter (fun m => m.conversationId = conversationId))

/-- `MemStorage.getMessage` (`server/storage.ts` line 124). -/
def MemStorage.getMessage (s : MemStorage) (id : Nat) : Option Message :=
  mapGet s.messages id

/-- `MemStorage.createMessage` (`server/storage.ts` lines 128-139): take a
fresh id from the shared counter, stamp `createdAt = now`, normalise the
falsy `metadata` / `agentUsed` inputs to `null`, and insert. -/
def MemStorage.createMessage (s : MemStorage) (im : InsertMessage) (now : Int) :
    Message × MemStorage :=
  let id := s.currentId
  let m : Message :=
    { id := id
      conversationId := im.conversationId
      content := im.content
      role := im.role
      messageType := im.messageType
      metadata := jsOrNullJson im.metadata
      agentUsed := jsOrNullStr im.agentUsed
      createdAt := now }
  (m, { s with messages := mapSet s.messages id m, currentId := id + 1 })

/-- Request body of `POST /api/chat` as destructured on `routes.ts` line
171: `message` and `conversationId` may be absent, `messageType` defaults
to `text` only when the property is absent. -/
structure ChatRequest where
  message : Option String
  conversationId : Option Nat
  messageType : Option String

/-- Fields of a successful inference-backend reply that the chat handler
reads (`routes.ts` lines 220-228): `response`, `metadata`, `agent_used`. -/
structure BackendReply where
  response : String
  metadata : JsonVal
  agentUsed : Option String

/-- Outcome of the `fetch` to the inference backend inside the chat
handler: `failure` covers both a non-2xx status (which the handler turns
into a thrown error) and a transport-level rejection. -/
inductive BackendResult where
  | ok (reply : BackendReply)
  | failure

/-- Body of the chat handler's HTTP response: `badRequest` is the 400
`Message content is required` reply, `ok` is a 200 reply carrying
`{userMessage, aiMessage, metadata}` (with `aiMessage := none`,
`metadata := JsonVal.null` on the pending-duplicate path), and
`upstreamError` is the 500 `Failed to process chat message` reply. -/
inductive ChatOutcome where
  | badRequest
  | ok (userMessage : Message) (aiMessage : Option Message) (metadata : JsonVal)
  | upstreamError

/-- Observable effect of one `POST /api/chat` call: the response body, the
storage state after the call, and whether the inference backend was
contacted. -/
structure ChatResult where
  outcome : ChatOutcome
  store : MemStorage
  backendCalled : Bool

/-- JavaScript `conversationId || 1` (`routes.ts` lines 176 and 198):
absent and `0` are falsy and default to conversation `1`. -/
def defaultConversationId : Option Nat → Nat
  | none => 1
  | some n => if n = 0 then 1 else n

/-- Duplicate predicate of `routes.ts` lines 178-182: same `user` role,
exactly equal content, and created less than 30000 ms before `now`. -/
def isRecentDuplicate (now : Int) (message : String) (m : Message) : Bool :=
  m.role == "user" && m.content == message && decide (now - m.createdAt < 30000)

/-- Assistant-reply predicate of `routes.ts` line 185: `assistant` role and
`createdAt` strictly after the duplicate's `createdAt`. -/
def isReplyAfter (duplicate m : Message) : Bool :=
  m.role == "assistant" && decide (duplicate.createdAt < m.createdAt)

/-- The `POST /api/chat` handler (`routes.ts` lines 169-239): validate,
look for a recent duplicate in the conversation's history (replaying the
earliest later assistant reply, or reporting a pending submission, without
touching the store or the backend), and otherwise persist the user
message, call the backend, and persist and return the assistant reply;
a backend failure after the user message is persisted yields a 500 with no
rollback. -/
def chatHandler (s : MemStorage) (now : Int) (req : ChatRequest)
    (backend : BackendResult) : ChatResult :=
  match req.message with
  | none => ⟨.badRequest, s, false⟩
  | some message =>
    if message = "" then ⟨.badRequest, s, false⟩
    else
      let conversationId := defaultConversationId req.conversationId
      let recentMessages := s.getMessages conversationId
      match recentMessages.find? (isRecentDuplicate now message) with
      | some duplicate =>
        match recentMessages.filter (isReplyAfter duplicate) with
        | aiMessage :: _ => ⟨.ok duplicate (some aiMessage) aiMessage.metadata, s, false⟩
        | [] => ⟨.ok duplicate none JsonVal.null, s, false⟩
      | none =>
        let userInsert : InsertMessage :=
          { conversationId := conversationId
            content := message
            role := "user"
            messageType := req.messageType.getD "text"
            metadata := some JsonVal.null
            agentUsed := none }
        match s.createMessage userInsert now with
        | (userMessage, s1) =>
          match backend with
          | .failure => ⟨.upstreamError, s1, true⟩
          | .ok reply =>
            let aiInsert : InsertMessage :=
              { conversationId := conversationId
                content := reply.response
                role := "assistant"
                messageType := "text"
                metadata := some reply.metadata
                agentUsed := reply.agentUsed }
            match s1.createMessage aiInsert now with
            | (aiMessage, s2) => ⟨.ok userMessage (some aiMessage) reply.metadata, s2, true⟩

/-- Result of a proxied `fetch` as seen by the `/api/agents/status` and
`/api/health` handlers: a parsed JSON body on success, otherwise a non-2xx
status (`httpFailure`) or a transport-level rejection (`transportFailure`),
both of which land in the `catch` block. -/
inductive ProxyResult where
  | success (data : JsonVal)
  | httpFailure
  | transportFailure

/-- Entry of the hardcoded fallback roster (`routes.ts` lines 63-70); the
timestamp is the ISO string of the handler's `new Date()`. -/
structure AgentStatusView where
  id : Nat
  agentName : String
  status : String
  lastActivity : String
  metadata : JsonVal

/-- Body of the `/api/agents/status` response: either the backend's JSON
passed through, or the fallback roster. -/
inductive AgentsStatusBody where
  | proxied (data : JsonVal)
  | roster (agents : List AgentStatusView)

/-- An HTTP reply: status code and body (`res.json` replies with 200). -/
structure HttpReply (β : Type) where
  statusCode : Nat
  body : β

/-- The six-agent fallback roster of `routes.ts` lines 63-70. -/
def fallbackRoster (nowIso : String) : List AgentStatusView :=
  [ ⟨1, "QueryHandler", "ready", nowIso, JsonVal.null⟩,
    ⟨2, "SemanticSearch", "ready", nowIso, JsonVal.null⟩,
    ⟨3, "FallbackRAG", "ready", nowIso, JsonVal.null⟩,
    ⟨4, "Summarizer", "ready", nowIso, JsonVal.null⟩,
    ⟨5, "TTS", "ready", nowIso, JsonVal.null⟩,
    ⟨6, "Vision", "ready", nowIso, JsonVal.null⟩ ]

/-- The `/api/agents/status` handler (`routes.ts` lines 46-72): pass the
backend body through on success, otherwise answer 200 with the fallback
roster. -/
def agentsStatusHandler (backend : ProxyResult) (nowIso : String) :
    HttpReply AgentsStatusBody :=
  match backend with
  | .success data => ⟨200, .proxied data⟩
  | .httpFailure => ⟨200, .roster (fallbackRoster nowIso)⟩
  | .transportFailure => ⟨200, .roster (fallbackRoster nowIso)⟩

/-- The `metrics` object of the health fallback (`routes.ts` lines 91-95). -/
structure HealthMetrics where
  vectorDBSize : String
  ollamaStatus : String
  responseTime : String

/-- The fallback health payload (`routes.ts` lines 87-96). -/
structure HealthPayload where
  status : String
  timestamp : String
  agents : List AgentStatusView
  metrics : HealthMetrics

/-- Body of the `/api/health` response: the backend's JSON passed through,
or the fallback payload. -/
inductive HealthBody where
  | proxied (data : JsonVal)
  | fallback (payload : HealthPayload)

/-- The fixed health fallback object of `routes.ts` lines 87-96. -/
def healthFallback (nowIso : String) : HealthPayload :=
  { status := "partial"
    timestamp := nowIso
    agents := []
    metrics := { vectorDBSize := "Unknown", ollamaStatus := "disconnected", responseTime := "Unknown" } }

/-- The `/api/health` handler (`routes.ts` lines 74-98): pass the backend
body through on success, otherwise answer 200 with the fallback payload. -/
def healthHandler (backend : ProxyResult) (nowIso : String) : HttpReply HealthBody :=
  match backend with
  | .success data => ⟨200, .proxied data⟩
  | .httpFailure => ⟨200, .fallback (healthFallback nowIso)⟩
  | .transportFailure => ⟨200, .fallback (healthFallback nowIso)⟩

/-- `MemStorage.createOrUpdateAgentStatus` (`server/storage.ts` lines
164-181): if a record keyed by the name exists, merge
(`{...existing, ...insert, lastActivity: now}` keeps the existing `id` and
keeps the existing `metadata` only when the insert carries none); otherwise
create a record with a fresh id. -/
def MemStorage.createOrUpdateAgentStatus (s : MemStorage) (ins : InsertAgentStatus)
    (now : Int) : AgentStatus × MemStorage :=
  match mapGet s.agentStatuses ins.agentName with
  | some existing =>
      let updated : AgentStatus :=
        { id := existing.id
          agentName := ins.agentName
          status := ins.status
          lastActivity := now
          metadata := match ins.metadata with
            | some v => v
            | none => existing.metadata }
      (updated, { s with agentStatuses := mapSet s.agentStatuses ins.agentName updated })
  | none =>
      let id := s.currentId
      let fresh : AgentStatus :=
        { id := id
          agentName := ins.agentName
          status := ins.status
          lastActivity := now
          metadata := jsOrNullJson ins.metadata }
      (fresh,
       { s with
          agentStatuses := mapSet s.agentStatuses ins.agentName fresh
          currentId := id + 1 })

/-! ### General lemmas about the embedded primitives -/

instance : IsTrans Message createdAtLE :=
  ⟨fun _ _ _ hab hbc => le_trans hab hbc⟩

instance : IsTotal Message createdAtLE :=
  ⟨fun a b => le_total a.createdAt b.createdAt⟩

theorem getMessages_perm (s : MemStorage) (cid : Nat) :
    List.Perm (s.getMessages cid)
      ((mapValues s.messages).filter (fun m => m.conversationId = cid)) :=
  List.perm_insertionSort createdAtLE _

theorem getMessages_pairwise (s : MemStorage) (cid : Nat) :
    (s.getMessages cid).Pairwise (fun a b => a.createdAt ≤ b.createdAt) :=
  List.sorted_insertionSort createdAtLE _

theorem find?_min_createdAt {p : Message → Bool} :
    ∀ (l : List Message) (x : Message),
      l.Pairwise (fun a b => a.createdAt ≤ b.createdAt) → l.find? p = some x →
      ∀ y ∈ l, p y = true → x.createdAt ≤ y.createdAt := by
  intro l
  induction l with
  | nil => intro x _ hfind; simp at hfind
  | cons a t ih =>
    intro x hpair hfind y hy hpy
    rcases List.pairwise_cons.mp hpair with ⟨ha, ht⟩
    rw [List.find?_cons] at hfind
    by_cases hpa : p a = true
    · rw [hpa] at hfind
      cases hfind
      rcases List.mem_cons.mp hy with rfl | hyt
      · exact le_refl _
      · exact ha y hyt
    · rw [Bool.not_eq_true] at hpa
      rw [hpa] at hfind
      rcases List.mem_cons.mp hy with rfl | hyt
      · rw [hpy] at hpa; cases hpa
      · exact ih x ht hfind y hyt hpy

theorem mapGet_mapDelete_self {κ α : Type} [DecidableEq κ] (l : List (κ × α)) (k : κ) :
    mapGet (mapDelete l k) k = none := by
  have h : (mapDelete l k).find? (fun p => p.1 = k) = none := by
    rw [List.find?_eq_none]
    intro p hp
    rcases List.mem_filter.mp hp with ⟨_, hpk⟩
    simpa using hpk
  simp [mapGet, h]

/-! ### C5 and C6: store invariants -/

/-- C5: after `deleteConversation id`, the conversation is gone, no message
of that conversation is retrievable (by conversation listing or at all),
and the message entries of other conversations are exactly the ones that
were there before. -/
theorem deleteConversation_cascade (s : MemStorage) (id : Nat) :
    (s.deleteConversation id).getConversation id = none ∧
    (s.deleteConversation id).getMessages id = [] ∧
    (∀ m ∈ mapValues (s.deleteConversation id).messages, m.conversationId ≠ id) ∧
    (s.deleteConversation id).messages
      = s.messages.filter (fun p => ¬ p.2.conversationId = id) := by
  refine ⟨?_, ?_, ?_, rfl⟩
  · exact mapGet_mapDelete_self s.conversations id
  · have h : (mapValues (s.deleteConversation id).messages).filter
        (fun m => m.conversationId = id) = [] := by
      rw [List.filter_eq_nil_iff]
      intro m hm
      rcases List.mem_map.mp hm with ⟨p, hp, rfl⟩
      rcases List.mem_filter.mp hp with ⟨_, hpk⟩
      simpa using hpk
    simp only [MemStorage.getMessages, h]
    rfl
  · intro m hm
    rcases List.mem_map.mp hm with ⟨p, hp, rfl⟩
    rcases List.mem_filter.mp hp with ⟨_, hpk⟩
    simpa using hpk

/-- Store with one conversation (id 7) and one message belonging to it,
used to instantiate the cascade-delete theorem. -/
def cascadeStore : MemStorage :=
  { conversations := [(7, { id := 7, title := "t", createdAt := 0, updatedAt := 0 })],
    messages := [(1, { id := 1, conversationId := 7, content := "hi", role := "user",
                       messageType := "text", metadata := JsonVal.null,
                       agentUsed := none, createdAt := 0 })],
    agentStatuses := [], vectorDocuments := [], currentId := 8 }

theorem deleteConversation_cascade_witness :
    (cascadeStore.deleteConversation 7).getConversation 7 = none ∧
    (cascadeStore.deleteConversation 7).getMessages 7 = [] :=
  ⟨(deleteConversation_cascade cascadeStore 7).1,
   (deleteConversation_cascade cascadeStore 7).2.1⟩

/-- C6: for every conversation and store state, `getMessages` returns
exactly the stored messages of that conversation (a permutation of the
filtered store contents) in an order that is non-decreasing in
`createdAt`. -/
theorem getMessages_exact_and_ordered (s : MemStorage) (cid : Nat) :
    List.Perm (s.getMessages cid)
      ((mapValues s.messages).filter (fun m => m.conversationId = cid)) ∧
    (s.getMessages cid).Pairwise (fun a b => a.createdAt ≤ b.createdAt) :=
  ⟨getMessages_perm s cid, getMessages_pairwise s cid⟩

/-! ### C7: validation, C9: proxy fallbacks, C10: falsy normalisation -/

/-- Empty storage state, as after constructing `MemStorage` with the agent
seeding stripped; used to instantiate the universally quantified
theorems. -/
def emptyStore : MemStorage :=
  { conversations := [], messages := [], agentStatuses := [],
    vectorDocuments := [], currentId := 1 }

/-- C7: a `/chat` request whose `message` is absent or empty is answered
with the 400 reply, the store is unchanged, and the backend is not
contacted. -/
theorem chat_validation (s : MemStorage) (now : Int) (req : ChatRequest)
    (backend : BackendResult)
    (hempty : req.message = none ∨ req.message = some "") :
    chatHandler s now req backend = ⟨ChatOutcome.badRequest, s, false⟩ := by
  rcases hempty with h | h <;> simp [chatHandler, h]

theorem chat_validation_witness :
    chatHandler emptyStore 0 ⟨none, none, none⟩ BackendResult.failure
      = ⟨ChatOutcome.badRequest, emptyStore, false⟩ :=
  chat_validation emptyStore 0 ⟨none, none, none⟩ BackendResult.failure (Or.inl rfl)

/-- C9: on any upstream failure (non-success response or transport error),
`/agents/status` answers 200 with the fixed six-agent `ready` roster and
`/health` answers 200 with exactly the fixed partial-health payload. -/
theorem proxy_fallback (backend : ProxyResult) (nowIso : String)
    (hfail : ∀ d, backend ≠ ProxyResult.success d) :
    agentsStatusHandler backend nowIso =
      ⟨200, AgentsStatusBody.roster
        [ ⟨1, "QueryHandler", "ready", nowIso, JsonVal.null⟩,
          ⟨2, "SemanticSearch", "ready", nowIso, JsonVal.null⟩,
          ⟨3, "FallbackRAG", "ready", nowIso, JsonVal.null⟩,
          ⟨4, "Summarizer", "ready", nowIso, JsonVal.null⟩,
          ⟨5, "TTS", "ready", nowIso, JsonVal.null⟩,
          ⟨6, "Vision", "ready", nowIso, JsonVal.null⟩ ]⟩ ∧
    healthHandler backend nowIso =
      ⟨200, HealthBody.fallback
        { status := "partial", timestamp := nowIso, agents := [],
          metrics := { vectorDBSize := "Unknown", ollamaStatus := "disconnected",
                       responseTime := "Unknown" } }⟩ := by
  cases backend with
  | success d => exact absurd rfl (hfail d)
  | httpFailure => exact ⟨rfl, rfl⟩
  | transportFailure => exact ⟨rfl, rfl⟩

theorem proxy_fallback_witness :
    agentsStatusHandler ProxyResult.transportFailure "2026-01-01T00:00:00.000Z" =
      ⟨200, AgentsStatusBody.roster
        [ ⟨1, "QueryHandler", "ready", "2026-01-01T00:00:00.000Z", JsonVal.null⟩,
          ⟨2, "SemanticSearch", "ready", "2026-01-01T00:00:00.000Z", JsonVal.null⟩,
          ⟨3, "FallbackRAG", "ready", "2026-01-01T00:00:00.000Z", JsonVal.null⟩,
          ⟨4, "Summarizer", "ready", "2026-01-01T00:00:00.000Z", JsonVal.null⟩,
          ⟨5, "TTS", "ready", "2026-01-01T00:00:00.000Z", JsonVal.null⟩,
          ⟨6, "Vision", "ready", "2026-01-01T00:00:00.000Z", JsonVal.null⟩ ]⟩ :=
  (proxy_fallback ProxyResult.transportFailure "2026-01-01T00:00:00.000Z"
    (fun _ h => ProxyResult.noConfusion h)).1

/-- C10: the record stored by `createMessage` has `metadata = null` exactly
when the supplied metadata is absent or a falsy JSON value (`null`,
`false`, `0`, `""`), keeps truthy metadata unchanged, and likewise has
`agentUsed = null` exactly when the supplied label is absent or the empty
string, keeping non-empty labels unchanged. -/
theorem createMessage_falsy_normalisation (s : MemStorage) (im : InsertMessage)
    (now : Int) :
    ((s.createMessage im now).1.metadata = JsonVal.null ↔
      im.metadata = none ∨ im.metadata = some JsonVal.null ∨
      im.metadata = some (JsonVal.bool false) ∨ im.metadata = some (JsonVal.num 0) ∨
      im.metadata = some (JsonVal.str "")) ∧
    (∀ v, im.metadata = some v → jsTruthy v = true →
      (s.createMessage im now).1.metadata = v) ∧
    ((s.createMessage im now).1.agentUsed = none ↔
      im.agentUsed = none ∨ im.agentUsed = some "") ∧
    (∀ a, im.agentUsed = some a → a ≠ "" →
      (s.createMessage im now).1.agentUsed = some a) := by
  refine ⟨?_, ?_, ?_, ?_⟩
  · show jsOrNullJson im.metadata = JsonVal.null ↔ _
    rcases im.metadata with _ | v
    · simp [jsOrNullJson]
    · cases v with
      | null => simp [jsOrNullJson, jsTruthy]
      | bool b => cases b <;> simp [jsOrNullJson, jsTruthy]
      | num n =>
        by_cases hn : n = 0 <;> simp [jsOrNullJson, jsTruthy, hn]
      | str t =>
        by_cases ht : t = "" <;> simp [jsOrNullJson, jsTruthy, ht]
      | arr elems => simp [jsOrNullJson, jsTruthy]
      | obj fields => simp [jsOrNullJson, jsTruthy]
  · intro v hv htr
    show jsOrNullJson im.metadata = v
    rw [hv]
    simp [jsOrNullJson, htr]
  · show jsOrNullStr im.agentUsed = none ↔ _
    rcases im.agentUsed with _ | a
    · simp [jsOrNullStr]
    · by_cases ha : a = "" <;> simp [jsOrNullStr, ha]
  · intro a ha hne
    show jsOrNullStr im.agentUsed = some a
    rw [ha]
    simp [jsOrNullStr, hne]

/-- Insert payload with truthy `metadata` and `agentUsed`, used to
instantiate `createMessage_falsy_normalisation`. -/
def sampleInsert : InsertMessage :=
  { conversationId := 1, content := "hello", role := "user", messageType := "text",
    metadata := some (JsonVal.str "x"), agentUsed := some "QueryHandler" }

theorem createMessage_falsy_normalisation_witness :
    (emptyStore.createMessage sampleInsert 5).1.metadata = JsonVal.str "x" :=
  (createMessage_falsy_normalisation emptyStore sampleInsert 5).2.1 (JsonVal.str "x") rfl rfl

/-! ### C1, C2, C3, C4: the chat deduplication protocol -/

/-- C1: when the history contains a recent duplicate and some assistant
message created strictly after it, the handler replies 200 with the
duplicate as `userMessage`, the earliest such assistant message as
`aiMessage` and that message's metadata, leaves the store untouched, and
does not contact the inference backend. -/
theorem chat_replay (s : MemStorage) (now : Int) (message : String)
    (cid : Option Nat) (mt : Option String) (backend : BackendResult) (dup : Message)
    (hmsg : message ≠ "")
    (hfind : (s.getMessages (defaultConversationId cid)).find?
      (isRecentDuplicate now message) = some dup)
    (hai : ∃ a ∈ s.getMessages (defaultConversationId cid), isReplyAfter dup a = true) :
    ∃ a, chatHandler s now ⟨some message, cid, mt⟩ backend
        = ⟨ChatOutcome.ok dup (some a) a.metadata, s, false⟩ ∧
      isReplyAfter dup a = true ∧
      ∀ b ∈ s.getMessages (defaultConversationId cid),
        isReplyAfter dup b = true → a.createdAt ≤ b.createdAt := by
  rcases hai with ⟨a0, ha0mem, ha0⟩
  have hne : (s.getMessages (defaultConversationId cid)).filter (isReplyAfter dup) ≠ [] := by
    intro h
    have hmem := List.mem_filter.mpr ⟨ha0mem, ha0⟩
    rw [h] at hmem
    cases hmem
  rcases hfl : (s.getMessages (defaultConversationId cid)).filter (isReplyAfter dup)
    with _ | ⟨a, rest⟩
  · exact absurd hfl hne
  · refine ⟨a, ?_, ?_, ?_⟩
    · simp [chatHandler, hmsg, hfind, hfl]
    · have hmem : a ∈ (s.getMessages (defaultConversationId cid)).filter (isReplyAfter dup) :=
        hfl ▸ List.mem_cons_self a rest
      exact (List.mem_filter.mp hmem).2
    · intro b hb hpb
      have hbf : b ∈ (s.getMessages (defaultConversationId cid)).filter (isReplyAfter dup) :=
        List.mem_filter.mpr ⟨hb, hpb⟩
      have hpair := List.Pairwise.filter (isReplyAfter dup)
        (getMessages_pairwise s (defaultConversationId cid))
      rw [hfl] at hbf hpair
      rcases List.mem_cons.mp hbf with rfl | hbr
      · exact le_refl _
      · exact (List.pairwise_cons.mp hpair).1 b hbr

/-- Stored user message with content `hi` created at time 1000. -/
def exU : Message :=
  { id := 1, conversationId := 1, content := "hi", role := "user",
    messageType := "text", metadata := JsonVal.null, agentUsed := none, createdAt := 1000 }

/-- Second stored user message with the same content `hi`, created later,
at time 2000. -/
def exU2 : Message :=
  { id := 2, conversationId := 1, content := "hi", role := "user",
    messageType := "text", metadata := JsonVal.null, agentUsed := none, createdAt := 2000 }

/-- Stored assistant reply created at time 1500, after `exU`. -/
def exA : Message :=
  { id := 3, conversationId := 1, content := "reply", role := "assistant",
    messageType := "text", metadata := JsonVal.str "m", agentUsed := some "QueryHandler",
    createdAt := 1500 }

/-- Store holding the two duplicate user messages `exU` and `exU2`. -/
def exS : MemStorage :=
  { conversations := [], messages := [(1, exU), (2, exU2)], agentStatuses := [],
    vectorDocuments := [], currentId := 3 }

/-- Store holding the user message `exU` and the assistant reply `exA`. -/
def exS2 : MemStorage :=
  { conversations := [], messages := [(1, exU), (3, exA)], agentStatuses := [],
    vectorDocuments := [], currentId := 4 }

/-- Store holding only the user message `exU`, with no assistant reply. -/
def pendStore : MemStorage :=
  { conversations := [], messages := [(1, exU)], agentStatuses := [],
    vectorDocuments := [], currentId := 2 }

theorem chat_replay_witness :
    ∃ a, chatHandler exS2 10000 ⟨some "hi", some 1, none⟩ BackendResult.failure
        = ⟨ChatOutcome.ok exU (some a) a.metadata, exS2, false⟩ ∧
      isReplyAfter exU a = true ∧
      ∀ b ∈ exS2.getMessages 1, isReplyAfter exU b = true → a.createdAt ≤ b.createdAt :=
  chat_replay exS2 10000 "hi" (some 1) none BackendResult.failure exU
    (by decide) rfl
    ⟨exA, by
      have h : exS2.getMessages (defaultConversationId (some 1)) = [exU, exA] := rfl
      rw [h]
      exact List.mem_cons_of_mem _ (List.mem_cons_self _ _), rfl⟩

/-- C2 as written is false: with two qualifying duplicates `exU`
(createdAt 1000) and `exU2` (createdAt 2000), the handler takes `exU` —
the earliest, not the most recently created — as the duplicate reference
returned in `userMessage`. -/
theorem chat_duplicate_most_recent_counterexample :
    (chatHandler exS 10000 ⟨some "hi", some 1, none⟩ BackendResult.failure).outcome
      = ChatOutcome.ok exU none JsonVal.null ∧
    isRecentDuplicate 10000 "hi" exU = true ∧
    isRecentDuplicate 10000 "hi" exU2 = true ∧
    exU2 ∈ exS.getMessages 1 ∧
    exU.createdAt < exU2.createdAt := by
  refine ⟨rfl, rfl, rfl, ?_, by norm_num [exU, exU2]⟩
  have h : exS.getMessages 1 = [exU, exU2] := rfl
  rw [h]
  exact List.mem_cons_of_mem _ (List.mem_cons_self _ _)

/-- C2 amended: the duplicate reference the handler picks (and returns as
`userMessage`) is the earliest-created qualifying message, and it is a
minimum of `createdAt` over all qualifying messages of the conversation. -/
theorem chat_duplicate_is_earliest (s : MemStorage) (now : Int) (message : String)
    (cid : Option Nat) (mt : Option String) (backend : BackendResult) (dup : Message)
    (hmsg : message ≠ "")
    (hfind : (s.getMessages (defaultConversationId cid)).find?
      (isRecentDuplicate now message) = some dup) :
    (∃ ai md, (chatHandler s now ⟨some message, cid, mt⟩ backend).outcome
        = ChatOutcome.ok dup ai md) ∧
    isRecentDuplicate now message dup = true ∧
    ∀ u ∈ s.getMessages (defaultConversationId cid),
      isRecentDuplicate now message u = true → dup.createdAt ≤ u.createdAt := by
  refine ⟨?_, List.find?_some hfind, ?_⟩
  · rcases hfl : (s.getMessages (defaultConversationId cid)).filter (isReplyAfter dup)
      with _ | ⟨a, rest⟩
    · exact ⟨none, JsonVal.null, by simp [chatHandler, hmsg, hfind, hfl]⟩
    · exact ⟨some a, a.metadata, by simp [chatHandler, hmsg, hfind, hfl]⟩
  · exact find?_min_createdAt _ dup (getMessages_pairwise s _) hfind

theorem chat_duplicate_is_earliest_witness :
    isRecentDuplicate 10000 "hi" exU = true ∧ exU.createdAt = 1000 :=
  ⟨(chat_duplicate_is_earliest exS 10000 "hi" (some 1) none BackendResult.failure exU
      (by decide) rfl).2.1, rfl⟩

/-- C3: when the history contains a recent duplicate but no assistant
message created strictly after it, the handler replies 200 with
`{userMessage: duplicate, aiMessage: null, metadata: null}`, leaves the
store untouched, and does not contact the inference backend. -/
theorem chat_pending (s : MemStorage) (now : Int) (message : String)
    (cid : Option Nat) (mt : Option String) (backend : BackendResult) (dup : Message)
    (hmsg : message ≠ "")
    (hfind : (s.getMessages (defaultConversationId cid)).find?
      (isRecentDuplicate now message) = some dup)
    (hnone : ∀ a ∈ s.getMessages (defaultConversationId cid),
      a.role = "assistant" → ¬ dup.createdAt < a.createdAt) :
    chatHandler s now ⟨some message, cid, mt⟩ backend
      = ⟨ChatOutcome.ok dup none JsonVal.null, s, false⟩ := by
  have hfl : (s.getMessages (defaultConversationId cid)).filter (isReplyAfter dup) = [] := by
    rw [List.filter_eq_nil_iff]
    intro a ha h
    rw [isReplyAfter, Bool.and_eq_true] at h
    rcases h with ⟨hrole, hlt⟩
    exact hnone a ha (by simpa using hrole) (by simpa using hlt)
  simp [chatHandler, hmsg, hfind, hfl]

theorem chat_pending_witness :
    chatHandler pendStore 10000 ⟨some "hi", some 1, none⟩ BackendResult.failure
      = ⟨ChatOutcome.ok exU none JsonVal.null, pendStore, false⟩ :=
  chat_pending pendStore 10000 "hi" (some 1) none BackendResult.failure exU
    (by decide) rfl
    (by
      intro a ha hrole
      have h : pendStore.getMessages (defaultConversationId (some 1)) = [exU] := rfl
      rw [h] at ha
      rcases List.mem_cons.mp ha with rfl | h2
      · simp [exU] at hrole
      · simp at h2)

/-- C4: on a fresh (non-duplicate) request whose backend call fails, the
handler replies with the 500 error after having contacted the backend, and
the store afterwards contains exactly the old entries plus the persisted
user message — the user message is not rolled back and no assistant
message is stored. -/
theorem chat_upstream_failure (s : MemStorage) (now : Int) (message : String)
    (cid : Option Nat) (mt : Option String)
    (hmsg : message ≠ "")
    (hfresh : (s.getMessages (defaultConversationId cid)).find?
      (isRecentDuplicate now message) = none)
    (hid : s.messages.any (fun p => p.1 = s.currentId) = false) :
    chatHandler s now ⟨some message, cid, mt⟩ BackendResult.failure =
      ⟨ChatOutcome.upstreamError,
       { s with
          messages := s.messages ++
            [(s.currentId,
              { id := s.currentId, conversationId := defaultConversationId cid,
                content := message, role := "user", messageType := mt.getD "text",
                metadata := JsonVal.null, agentUsed := none, createdAt := now })]
          currentId := s.currentId + 1 },
       true⟩ := by
  simp [chatHandler, hmsg, hfresh, MemStorage.createMessage, mapSet, hid,
    jsOrNullJson, jsOrNullStr, jsTruthy]

theorem chat_upstream_failure_witness :
    chatHandler emptyStore 10000 ⟨some "hello", some 1, none⟩ BackendResult.failure =
      ⟨ChatOutcome.upstreamError,
       { conversations := [],
         messages := [(1, { id := 1, conversationId := 1, content := "hello",
                            role := "user", messageType := "text",
                            metadata := JsonVal.null, agentUsed := none,
                            createdAt := 10000 })],
         agentStatuses := [], vectorDocuments := [], currentId := 2 },
       true⟩ :=
  chat_upstream_failure emptyStore 10000 "hello" (some 1) none (by decide) rfl rfl

/-! ### C8: agent-status upsert idempotence -/

theorem mapGet_mapSet_self {κ α : Type} [DecidableEq κ] (l : List (κ × α)) (k : κ)
    (v : α) : mapGet (mapSet l k v) k = some v := by
  by_cases h : l.any (fun p => decide (p.1 = k)) = true
  · rw [mapSet, if_pos h, mapGet]
    have hc : ((fun p : κ × α => decide (p.1 = k)) ∘
        (fun p : κ × α => if p.1 = k then (k, v) else p))
        = fun p : κ × α => decide (p.1 = k) := by
      funext p
      by_cases hp : p.1 = k <;> simp [hp]
    rw [List.find?_map, hc]
    rcases List.any_eq_true.mp h with ⟨q, hq, hqk⟩
    rcases hfind : l.find? (fun p => decide (p.1 = k)) with _ | q0
    · rw [List.find?_eq_none] at hfind
      exact absurd hqk (hfind q hq)
    · have hq0 : q0.1 = k := by simpa using List.find?_some hfind
      simp [hfind, hq0]
  · rw [Bool.not_eq_true] at h
    rw [mapSet, if_neg (by simp [h]), mapGet, List.find?_append]
    have hnone : l.find? (fun p => decide (p.1 = k)) = none := by
      rw [List.find?_eq_none]
      intro p hp
      have := List.any_eq_false.mp h p hp
      simpa using this
    simp [hnone]

theorem nodupKeys_mapSet {κ α : Type} [DecidableEq κ] (l : List (κ × α)) (k : κ)
    (v : α) (hkeys : (l.map Prod.fst).Nodup) :
    ((mapSet l k v).map Prod.fst).Nodup := by
  by_cases h : l.any (fun p => decide (p.1 = k)) = true
  · rw [mapSet, if_pos h, List.map_map]
    have hc : (Prod.fst ∘ (fun p : κ × α => if p.1 = k then (k, v) else p))
        = (Prod.fst : κ × α → κ) := by
      funext p
      by_cases hp : p.1 = k <;> simp [hp]
    rw [hc]
    exact hkeys
  · rw [Bool.not_eq_true] at h
    rw [mapSet, if_neg (by simp [h]), List.map_append]
    refine List.Nodup.append hkeys (by simp) ?_
    intro a ha hb
    simp only [List.map_cons, List.map_nil, List.mem_singleton] at hb
    subst hb
    rcases List.mem_map.mp ha with ⟨p, hp, hpk⟩
    have := List.any_eq_false.mp h p hp
    simp [hpk] at this

theorem length_filter_key_eq_one {κ α : Type} [DecidableEq κ] :
    ∀ (l : List (κ × α)) (k : κ), (l.map Prod.fst).Nodup →
      l.any (fun p => decide (p.1 = k)) = true →
      (l.filter (fun p => p.1 = k)).length = 1 := by
  intro l
  induction l with
  | nil => intro k _ h; simp at h
  | cons p t ih =>
    intro k hkeys h
    simp only [List.map_cons, List.nodup_cons] at hkeys
    rcases hkeys with ⟨hpk, htk⟩
    by_cases hp : p.1 = k
    · have hrest : t.filter (fun q => decide (q.1 = k)) = [] := by
        rw [List.filter_eq_nil_iff]
        intro q hq hqk
        have hq1 : q.1 = k := by simpa using hqk
        exact hpk (List.mem_map.mpr ⟨q, hq, by rw [hq1, hp]⟩)
      simp [List.filter_cons, hp, hrest]
    · have hany : t.any (fun q => decide (q.1 = k)) = true := by
        rcases List.any_eq_true.mp h with ⟨q, hq, hqk⟩
        rcases List.mem_cons.mp hq with rfl | hqt
        · exact absurd (by simpa using hqk) hp
        · exact List.any_eq_true.mpr ⟨q, hqt, hqk⟩
      simpa [List.filter_cons, hp] using ih k htk hany

theorem length_filter_key_mapSet {κ α : Type} [DecidableEq κ] (l : List (κ × α))
    (k : κ) (v : α) (hkeys : (l.map Prod.fst).Nodup) :
    ((mapSet l k v).filter (fun p => p.1 = k)).length = 1 := by
  by_cases h : l.any (fun p => decide (p.1 = k)) = true
  · rw [mapSet, if_pos h]
    have hc : ((fun p : κ × α => decide (p.1 = k)) ∘
        (fun p : κ × α => if p.1 = k then (k, v) else p))
        = fun p : κ × α => decide (p.1 = k) := by
      funext p
      by_cases hp : p.1 = k <;> simp [hp]
    rw [List.filter_map, hc, List.length_map]
    exact length_filter_key_eq_one l k hkeys h
  · rw [Bool.not_eq_true] at h
    rw [mapSet, if_neg (by simp [h]), List.filter_append]
    have hnil : l.filter (fun p => decide (p.1 = k)) = [] := by
      rw [List.filter_eq_nil_iff]
      intro p hp
      have := List.any_eq_false.mp h p hp
      simpa using this
    simp [hnil]

theorem upsert_store_eq (s : MemStorage) (ins : InsertAgentStatus) (now : Int) :
    (s.createOrUpdateAgentStatus ins now).2.agentStatuses
      = mapSet s.agentStatuses ins.agentName (s.createOrUpdateAgentStatus ins now).1 := by
  rcases h : mapGet s.agentStatuses ins.agentName with _ | ex <;>
    simp [MemStorage.createOrUpdateAgentStatus, h]

theorem upsert_of_get_some (s : MemStorage) (ins : InsertAgentStatus) (now : Int)
    (ex : AgentStatus) (h : mapGet s.agentStatuses ins.agentName = some ex) :
    (s.createOrUpdateAgentStatus ins now).1 =
      { id := ex.id, agentName := ins.agentName, status := ins.status,
        lastActivity := now,
        metadata := match ins.metadata with | some v => v | none => ex.metadata } := by
  simp [MemStorage.createOrUpdateAgentStatus, h]

/-- Two consecutive agent-status upserts with the same insert payload, the
scenario of the idempotence property. -/
def upsertTwice (s : MemStorage) (ins : InsertAgentStatus) (now1 now2 : Int) :
    AgentStatus × MemStorage :=
  ((s.createOrUpdateAgentStatus ins now1).2).createOrUpdateAgentStatus ins now2

/-- C8: upserting the same agent payload twice leaves exactly one record
keyed by that name; the second result keeps the id of the first, carries
the payload's fields, takes the second call's `lastActivity`, merges
`metadata` from the later call (falling back to the first record's value
when absent), and is the record retrievable under the name; when no record
existed before, the first call created one with the fresh id from the
shared counter and `lastActivity` of the first call. -/
theorem agent_upsert_idempotent (s : MemStorage) (ins : InsertAgentStatus)
    (now1 now2 : Int) (hkeys : (s.agentStatuses.map Prod.fst).Nodup) :
    ((upsertTwice s ins now1 now2).2.agentStatuses.filter
        (fun p => p.1 = ins.agentName)).length = 1 ∧
    (upsertTwice s ins now1 now2).1.id = (s.createOrUpdateAgentStatus ins now1).1.id ∧
    (upsertTwice s ins now1 now2).1.lastActivity = now2 ∧
    (upsertTwice s ins now1 now2).1.agentName = ins.agentName ∧
    (upsertTwice s ins now1 now2).1.status = ins.status ∧
    (upsertTwice s ins now1 now2).1.metadata
      = (match ins.metadata with
         | some v => v
         | none => (s.createOrUpdateAgentStatus ins now1).1.metadata) ∧
    mapGet (upsertTwice s ins now1 now2).2.agentStatuses ins.agentName
      = some (upsertTwice s ins now1 now2).1 ∧
    (mapGet s.agentStatuses ins.agentName = none →
      (s.createOrUpdateAgentStatus ins now1).1.id = s.currentId ∧
      (s.createOrUpdateAgentStatus ins now1).1.lastActivity = now1) := by
  have h1 : mapGet (s.createOrUpdateAgentStatus ins now1).2.agentStatuses ins.agentName
      = some (s.createOrUpdateAgentStatus ins now1).1 := by
    rw [upsert_store_eq]
    exact mapGet_mapSet_self _ _ _
  have hkeys1 : ((s.createOrUpdateAgentStatus ins now1).2.agentStatuses.map Prod.fst).Nodup := by
    rw [upsert_store_eq]
    exact nodupKeys_mapSet _ _ _ hkeys
  have hsecond := upsert_of_get_some (s.createOrUpdateAgentStatus ins now1).2 ins now2
    (s.createOrUpdateAgentStatus ins now1).1 h1
  refine ⟨?_, ?_, ?_, ?_, ?_, ?_, ?_, ?_⟩
  · have hst := upsert_store_eq (s.createOrUpdateAgentStatus ins now1).2 ins now2
    rw [upsertTwice, hst]
    exact length_filter_key_mapSet _ _ _ hkeys1
  · rw [upsertTwice, hsecond]
  · rw [upsertTwice, hsecond]
  · rw [upsertTwice, hsecond]
  · rw [upsertTwice, hsecond]
  · rw [upsertTwice, hsecond]
  · have hst := upsert_store_eq (s.createOrUpdateAgentStatus ins now1).2 ins now2
    rw [upsertTwice, hst]
    exact mapGet_mapSet_self _ _ _
  · intro hmiss
    constructor <;> simp [MemStorage.createOrUpdateAgentStatus, hmiss]

/-- Upsert payload used to instantiate the idempotence theorem. -/
def sampleAgentInsert : InsertAgentStatus :=
  { agentName := "QueryHandler", status := "active", metadata := none }

theorem agent_upsert_idempotent_witness :
    ((upsertTwice emptyStore sampleAgentInsert 1 2).2.agentStatuses.filter
        (fun p => p.1 = sampleAgentInsert.agentName)).length = 1 ∧
    (upsertTwice emptyStore sampleAgentInsert 1 2).1.lastActivity = 2 :=
  ⟨(agent_upsert_idempotent emptyStore sampleAgentInsert 1 2 (by simp [emptyStore])).1,
   (agent_upsert_idempotent emptyStore sampleAgentInsert 1 2 (by simp [emptyStore])).2.2.1⟩

end Neurofluxion
